import Mathlib

/-!
Verification development for the `stem.manual` subsystem (document model,
man-text parser, dual-backend persistence, query interface, importance
classifier).  The module under verification is absent from the source tree
(only its unit tests, `setup.py` and an unrelated integration test are
present), so the definitions below are modelled from the specification,
constrained by the behaviour the unit tests in `test/unit/manual.py` pin
down (error-message text, the `torrc` table name, category display strings,
the curated importance set, and the round-trip expectations).
-/

namespace StemManual

/-- Modelled from the spec: the closed category enumeration of `stem.manual.Category`
(§3 of the spec); `UNKNOWN` is the default for unrecognized sections. -/
inductive Category where
  | GENERAL
  | CLIENT
  | RELAY
  | DIRECTORY_AUTHORITY
  | AUTHENTICATION
  | TESTING
  | UNKNOWN
  deriving DecidableEq

/-- Modelled from the spec: `stem.manual.ConfigOption`, five fields, equality is
field-wise (§3).  The test `test_minimal_config_option` pins the defaults. -/
structure ConfigOption where
  name : String
  category : Category
  usage : String
  summary : String
  description : String
  deriving DecidableEq

/-- Modelled from the spec: default construction of a `ConfigOption` with only a
name; every other field at its empty default, category `UNKNOWN`. -/
def ConfigOption.minimal (n : String) : ConfigOption :=
  ⟨n, Category.UNKNOWN, "", "", ""⟩

/-- Modelled from the spec: `stem.manual.Manual` (§3).  The four ordered mappings
are embedded as association lists, whose list order is the insertion order;
equality of `Manual` values is the order-sensitive deep equality of the model. -/
structure Manual where
  name : String
  synopsis : String
  description : String
  commandline_options : List (String × String)
  signals : List (String × String)
  files : List (String × String)
  config_options : List (String × ConfigOption)
  deriving DecidableEq

/-- Modelled from the spec: the all-empty `Manual` (§3 invariant: empty/unparsed
manual yields all mapping fields empty and all string fields empty). -/
def Manual.empty : Manual :=
  ⟨"", "", "", [], [], [], []⟩

/-- Modelled from the spec: the display string stored for each category in the
persisted formats.  The unit tests pin `General` and `Client`
(`EXPECTED_CONFIG_OPTIONS` in `test/unit/manual.py`). -/
def categoryStr : Category → String
  | Category.GENERAL => "General"
  | Category.CLIENT => "Client"
  | Category.RELAY => "Relay"
  | Category.DIRECTORY_AUTHORITY => "Directory Authority"
  | Category.AUTHENTICATION => "Authentication"
  | Category.TESTING => "Testing"
  | Category.UNKNOWN => "Unknown"

/-- Modelled from the spec: parsing a stored category display string back into the
enumeration; unrecognized strings default to `UNKNOWN` (§3). -/
def categoryOfString (s : String) : Category :=
  if s = "General" then Category.GENERAL
  else if s = "Client" then Category.CLIENT
  else if s = "Relay" then Category.RELAY
  else if s = "Directory Authority" then Category.DIRECTORY_AUTHORITY
  else if s = "Authentication" then Category.AUTHENTICATION
  else if s = "Testing" then Category.TESTING
  else Category.UNKNOWN

theorem categoryOfString_categoryStr (c : Category) :
    categoryOfString (categoryStr c) = c := by
  cases c <;> decide

/-- Modelled from the spec: character-level escaping of the flat text backend.
A line break is re-encoded as the sentinel `\n` (backslash, letter n) and a
literal backslash is escaped as `\\`, so sentinel-like substrings in the
content never collide with the encoding (§4.4 escaping discipline). -/
def escapeChar (c : Char) : List Char :=
  if c = '\\' then ['\\', '\\']
  else if c = '\n' then ['\\', 'n']
  else [c]

/-- Modelled from the spec: flatten a (possibly multi-line) value to a single
line for the flat text backend. -/
def flattenChars : List Char → List Char
  | [] => []
  | c :: cs => escapeChar c ++ flattenChars cs

/-- Modelled from the spec: exact reversal of `flattenChars` performed on load. -/
def unflattenChars : List Char → List Char
  | [] => []
  | [c] => [c]
  | c :: d :: cs =>
      if c = '\\' then
        (if d = '\\' then '\\' else if d = 'n' then '\n' else d) :: unflattenChars cs
      else
        c :: unflattenChars (d :: cs)

theorem unflattenChars_one (c : Char) : unflattenChars [c] = [c] := rfl

theorem unflattenChars_cons2 (c d : Char) (cs : List Char) :
    unflattenChars (c :: d :: cs) =
      if c = '\\' then
        (if d = '\\' then '\\' else if d = 'n' then '\n' else d) :: unflattenChars cs
      else
        c :: unflattenChars (d :: cs) := rfl

theorem escapeChar_ne_nil (c : Char) : escapeChar c ≠ [] := by
  unfold escapeChar
  split
  · simp
  · split <;> simp

theorem flattenChars_eq_nil_iff (cs : List Char) : flattenChars cs = [] ↔ cs = [] := by
  cases cs with
  | nil => simp [flattenChars]
  | cons c cs =>
      simp only [flattenChars, List.append_eq_nil]
      constructor
      · rintro ⟨h, _⟩
        exact absurd h (escapeChar_ne_nil c)
      · intro h
        exact absurd h (by simp)

theorem unflatten_flatten (cs : List Char) : unflattenChars (flattenChars cs) = cs := by
  induction cs with
  | nil => rfl
  | cons c cs ih =>
      show unflattenChars (escapeChar c ++ flattenChars cs) = c :: cs
      by_cases hb : c = '\\'
      · subst hb
        have he : escapeChar '\\' = ['\\', '\\'] := rfl
        rw [he, List.cons_append, List.cons_append, List.nil_append, unflattenChars_cons2]
        simp [ih]
      · by_cases hn : c = '\n'
        · subst hn
          have he : escapeChar '\n' = ['\\', 'n'] := rfl
          rw [he, List.cons_append, List.cons_append, List.nil_append, unflattenChars_cons2]
          simp [ih]
        · simp only [escapeChar, if_neg hb, if_neg hn, List.cons_append, List.nil_append]
          rcases hfl : flattenChars cs with _ | ⟨e, es⟩
          · rw [(flattenChars_eq_nil_iff cs).mp hfl]
            exact unflattenChars_one c
          · rw [unflattenChars_cons2, if_neg hb, ← hfl, ih]

/-- Modelled from the spec: string-level flattening for the flat text backend. -/
def flattenStr (s : String) : String :=
  String.mk (flattenChars s.data)

/-- Modelled from the spec: string-level unflattening performed on load. -/
def unflattenStr (s : String) : String :=
  String.mk (unflattenChars s.data)

theorem unflattenStr_flattenStr (s : String) : unflattenStr (flattenStr s) = s := by
  cases s with
  | mk data => simp [flattenStr, unflattenStr, unflatten_flatten]

/-- Modelled from the spec: the stable dotted-key vocabulary of the flat text
persistence format (§6): `tor.name`, `tor.synopsis`, `tor.description`,
`tor.commandline_options.<flag>`, `tor.signals.<signal>`, `tor.files.<path>`,
`tor.config_options.<name>` (description), and the `.category`, `.usage`,
`.summary` sub-keys of a config option.  `unrecognized` stands for any other
dotted key, which load ignores (forward compatibility). -/
inductive FlatKey where
  | nameK
  | synopsisK
  | descriptionK
  | cmdOpt (flag : String)
  | signalK (sig : String)
  | fileK (path : String)
  | cfgDesc (n : String)
  | cfgCategory (n : String)
  | cfgUsage (n : String)
  | cfgSummary (n : String)
  | unrecognized (raw : String)
  deriving DecidableEq

/-- Modelled from the spec: the four flat-format lines emitted for one config
option; `summary` is persisted alongside the parser-filled fields (§6). -/
def cfgLines (kv : String × ConfigOption) : List (FlatKey × String) :=
  [(FlatKey.cfgDesc kv.1, flattenStr kv.2.description),
   (FlatKey.cfgCategory kv.1, flattenStr (categoryStr kv.2.category)),
   (FlatKey.cfgUsage kv.1, flattenStr kv.2.usage),
   (FlatKey.cfgSummary kv.1, flattenStr kv.2.summary)]

/-- Modelled from the spec: saving a `Manual` in the flat text backend, one line
per leaf fact, in document order (§4.4, §6). -/
def saveAsConfig (m : Manual) : List (FlatKey × String) :=
  [(FlatKey.nameK, flattenStr m.name),
   (FlatKey.synopsisK, flattenStr m.synopsis),
   (FlatKey.descriptionK, flattenStr m.description)]
  ++ m.commandline_options.map (fun kv => (FlatKey.cmdOpt kv.1, flattenStr kv.2))
  ++ m.signals.map (fun kv => (FlatKey.signalK kv.1, flattenStr kv.2))
  ++ m.files.map (fun kv => (FlatKey.fileK kv.1, flattenStr kv.2))
  ++ (m.config_options.map cfgLines).flatten

/-- Modelled from the spec: ordered-mapping write with last-write-wins semantics
on duplicate keys and insertion-order preservation (§3). -/
def odSet {α : Type} (l : List (String × α)) (k : String) (v : α) : List (String × α) :=
  if l.any (fun kv => kv.1 = k) then
    l.map (fun kv => if kv.1 = k then (k, v) else kv)
  else
    l ++ [(k, v)]

/-- Modelled from the spec: ordered-mapping update of a config option under key
`k`, creating a minimal option first when the key is absent (§3, §4.4: keys not
present in the loaded data leave fields at their empty defaults). -/
def odUpdate (l : List (String × ConfigOption)) (k : String) (f : ConfigOption → ConfigOption) :
    List (String × ConfigOption) :=
  if l.any (fun kv => kv.1 = k) then
    l.map (fun kv => if kv.1 = k then (k, f kv.2) else kv)
  else
    l ++ [(k, f (ConfigOption.minimal k))]

/-- Modelled from the spec: replace the description field of a config option. -/
def setDescF (v : String) (o : ConfigOption) : ConfigOption :=
  { o with description := v }

/-- Modelled from the spec: replace the category field of a config option. -/
def setCategoryF (v : String) (o : ConfigOption) : ConfigOption :=
  { o with category := categoryOfString v }

/-- Modelled from the spec: replace the usage field of a config option. -/
def setUsageF (v : String) (o : ConfigOption) : ConfigOption :=
  { o with usage := v }

/-- Modelled from the spec: replace the summary field of a config option. -/
def setSummaryF (v : String) (o : ConfigOption) : ConfigOption :=
  { o with summary := v }

/-- Modelled from the spec: applying one flat-format line to a partially loaded
`Manual`; unrecognized keys are ignored (§6). -/
def applyLine (m : Manual) (line : FlatKey × String) : Manual :=
  match line.1 with
  | FlatKey.nameK => { m with name := unflattenStr line.2 }
  | FlatKey.synopsisK => { m with synopsis := unflattenStr line.2 }
  | FlatKey.descriptionK => { m with description := unflattenStr line.2 }
  | FlatKey.cmdOpt f =>
      { m with commandline_options := odSet m.commandline_options f (unflattenStr line.2) }
  | FlatKey.signalK s =>
      { m with signals := odSet m.signals s (unflattenStr line.2) }
  | FlatKey.fileK p =>
      { m with files := odSet m.files p (unflattenStr line.2) }
  | FlatKey.cfgDesc n =>
      { m with config_options := odUpdate m.config_options n (setDescF (unflattenStr line.2)) }
  | FlatKey.cfgCategory n =>
      { m with config_options := odUpdate m.config_options n (setCategoryF (unflattenStr line.2)) }
  | FlatKey.cfgUsage n =>
      { m with config_options := odUpdate m.config_options n (setUsageF (unflattenStr line.2)) }
  | FlatKey.cfgSummary n =>
      { m with config_options := odUpdate m.config_options n (setSummaryF (unflattenStr line.2)) }
  | FlatKey.unrecognized _ => m

/-- Modelled from the spec: loading a `Manual` from the flat text backend by
folding the lines over the all-empty `Manual` (§4.4). -/
def loadConfig (lines : List (FlatKey × String)) : Manual :=
  lines.foldl applyLine Manual.empty

theorem any_key_eq_false {α : Type} (l : List (String × α)) (k : String)
    (h : k ∉ l.map Prod.fst) : (l.any (fun kv => kv.1 = k)) = false := by
  rw [List.any_eq_false]
  intro kv hkv
  simp only [decide_eq_true_eq]
  intro he
  exact h (he ▸ List.mem_map_of_mem Prod.fst hkv)

theorem odSet_fresh {α : Type} (l : List (String × α)) (k : String) (v : α)
    (h : k ∉ l.map Prod.fst) : odSet l k v = l ++ [(k, v)] := by
  rw [odSet, any_key_eq_false l k h]
  simp

theorem odUpdate_fresh (l : List (String × ConfigOption)) (k : String)
    (f : ConfigOption → ConfigOption) (h : k ∉ l.map Prod.fst) :
    odUpdate l k f = l ++ [(k, f (ConfigOption.minimal k))] := by
  rw [odUpdate, any_key_eq_false l k h]
  simp

theorem map_update_of_fresh (l : List (String × ConfigOption)) (k : String)
    (f : ConfigOption → ConfigOption) (h : k ∉ l.map Prod.fst) :
    l.map (fun kv => if kv.1 = k then (k, f kv.2) else kv) = l := by
  induction l with
  | nil => rfl
  | cons kv l ih =>
      have hk : kv.1 ≠ k := by
        intro he
        exact h (by simp [he])
      have hl : k ∉ l.map Prod.fst := by
        intro hm
        exact h (by simp [hm])
      simp only [List.map_cons, if_neg hk, ih hl]

theorem odUpdate_append_fresh (l : List (String × ConfigOption)) (k : String)
    (o : ConfigOption) (f : ConfigOption → ConfigOption) (h : k ∉ l.map Prod.fst) :
    odUpdate (l ++ [(k, o)]) k f = l ++ [(k, f o)] := by
  have hany : ((l ++ [(k, o)]).any (fun kv => kv.1 = k)) = true := by
    rw [List.any_eq_true]
    exact ⟨(k, o), by simp⟩
  rw [odUpdate, hany]
  simp only [if_pos, List.map_append, map_update_of_fresh l k f h]
  simp

theorem foldl_cmd_stage (ps : List (String × String)) :
    ∀ (a b c : String) (cmd sg fl : List (String × String))
      (cfg : List (String × ConfigOption)),
    (∀ k ∈ ps.map Prod.fst, k ∉ cmd.map Prod.fst) → (ps.map Prod.fst).Nodup →
    List.foldl applyLine ⟨a, b, c, cmd, sg, fl, cfg⟩
      (ps.map (fun kv => (FlatKey.cmdOpt kv.1, flattenStr kv.2))) =
      ⟨a, b, c, cmd ++ ps, sg, fl, cfg⟩ := by
  induction ps with
  | nil => intro a b c cmd sg fl cfg _ _; simp
  | cons kv ps ih =>
      obtain ⟨k, v⟩ := kv
      intro a b c cmd sg fl cfg hfresh hnodup
      have hk : k ∉ cmd.map Prod.fst := hfresh k (by simp)
      have step : applyLine ⟨a, b, c, cmd, sg, fl, cfg⟩ (FlatKey.cmdOpt k, flattenStr v) =
          ⟨a, b, c, cmd ++ [(k, v)], sg, fl, cfg⟩ := by
        simp only [applyLine, unflattenStr_flattenStr, odSet_fresh cmd k v hk]
      rw [List.map_cons, List.foldl_cons, step,
        ih a b c (cmd ++ [(k, v)]) sg fl cfg ?fresh ?nodup]
      · simp
      case fresh =>
        intro k' hk'
        simp only [List.map_append, List.mem_append]
        rintro (h1 | h2)
        · exact hfresh k' (by simp [hk']) h1
        · have : k' = k := by simpa using h2
          rw [List.map_cons, List.nodup_cons] at hnodup
          exact hnodup.1 (this ▸ hk')
      case nodup =>
        rw [List.map_cons, List.nodup_cons] at hnodup
        exact hnodup.2

theorem foldl_signal_stage (ps : List (String × String)) :
    ∀ (a b c : String) (cmd sg fl : List (String × String))
      (cfg : List (String × ConfigOption)),
    (∀ k ∈ ps.map Prod.fst, k ∉ sg.map Prod.fst) → (ps.map Prod.fst).Nodup →
    List.foldl applyLine ⟨a, b, c, cmd, sg, fl, cfg⟩
      (ps.map (fun kv => (FlatKey.signalK kv.1, flattenStr kv.2))) =
      ⟨a, b, c, cmd, sg ++ ps, fl, cfg⟩ := by
  induction ps with
  | nil => intro a b c cmd sg fl cfg _ _; simp
  | cons kv ps ih =>
      obtain ⟨k, v⟩ := kv
      intro a b c cmd sg fl cfg hfresh hnodup
      have hk : k ∉ sg.map Prod.fst := hfresh k (by simp)
      have step : applyLine ⟨a, b, c, cmd, sg, fl, cfg⟩ (FlatKey.signalK k, flattenStr v) =
          ⟨a, b, c, cmd, sg ++ [(k, v)], fl, cfg⟩ := by
        simp only [applyLine, unflattenStr_flattenStr, odSet_fresh sg k v hk]
      rw [List.map_cons, List.foldl_cons, step,
        ih a b c cmd (sg ++ [(k, v)]) fl cfg ?fresh ?nodup]
      · simp
      case fresh =>
        intro k' hk'
        simp only [List.map_append, List.mem_append]
        rintro (h1 | h2)
        · exact hfresh k' (by simp [hk']) h1
        · have : k' = k := by simpa using h2
          rw [List.map_cons, List.nodup_cons] at hnodup
          exact hnodup.1 (this ▸ hk')
      case nodup =>
        rw [List.map_cons, List.nodup_cons] at hnodup
        exact hnodup.2

theorem foldl_file_stage (ps : List (String × String)) :
    ∀ (a b c : String) (cmd sg fl : List (String × String))
      (cfg : List (String × ConfigOption)),
    (∀ k ∈ ps.map Prod.fst, k ∉ fl.map Prod.fst) → (ps.map Prod.fst).Nodup →
    List.foldl applyLine ⟨a, b, c, cmd, sg, fl, cfg⟩
      (ps.map (fun kv => (FlatKey.fileK kv.1, flattenStr kv.2))) =
      ⟨a, b, c, cmd, sg, fl ++ ps, cfg⟩ := by
  induction ps with
  | nil => intro a b c cmd sg fl cfg _ _; simp
  | cons kv ps ih =>
      obtain ⟨k, v⟩ := kv
      intro a b c cmd sg fl cfg hfresh hnodup
      have hk : k ∉ fl.map Prod.fst := hfresh k (by simp)
      have step : applyLine ⟨a, b, c, cmd, sg, fl, cfg⟩ (FlatKey.fileK k, flattenStr v) =
          ⟨a, b, c, cmd, sg, fl ++ [(k, v)], cfg⟩ := by
        simp only [applyLine, unflattenStr_flattenStr, odSet_fresh fl k v hk]
      rw [List.map_cons, List.foldl_cons, step,
        ih a b c cmd sg (fl ++ [(k, v)]) cfg ?fresh ?nodup]
      · simp
      case fresh =>
        intro k' hk'
        simp only [List.map_append, List.mem_append]
        rintro (h1 | h2)
        · exact hfresh k' (by simp [hk']) h1
        · have : k' = k := by simpa using h2
          rw [List.map_cons, List.nodup_cons] at hnodup
          exact hnodup.1 (this ▸ hk')
      case nodup =>
        rw [List.map_cons, List.nodup_cons] at hnodup
        exact hnodup.2

theorem foldl_cfgLines (k : String) (o : ConfigOption) (a b c : String)
    (cmd sg fl : List (String × String)) (cfg : List (String × ConfigOption))
    (hk : k ∉ cfg.map Prod.fst) (hn : o.name = k) :
    List.foldl applyLine ⟨a, b, c, cmd, sg, fl, cfg⟩ (cfgLines (k, o)) =
      ⟨a, b, c, cmd, sg, fl, cfg ++ [(k, o)]⟩ := by
  obtain ⟨nm, oc, ou, os, od⟩ := o
  have hnk : nm = k := hn
  subst hnk
  simp only [cfgLines, List.foldl_cons, List.foldl_nil, applyLine, unflattenStr_flattenStr]
  rw [odUpdate_fresh cfg nm _ hk,
    odUpdate_append_fresh cfg nm _ _ hk,
    odUpdate_append_fresh cfg nm _ _ hk,
    odUpdate_append_fresh cfg nm _ _ hk]
  simp [setDescF, setCategoryF, setUsageF, setSummaryF, ConfigOption.minimal,
    categoryOfString_categoryStr]

theorem foldl_cfg_stage (ps : List (String × ConfigOption)) :
    ∀ (a b c : String) (cmd sg fl : List (String × String))
      (cfg : List (String × ConfigOption)),
    (∀ k ∈ ps.map Prod.fst, k ∉ cfg.map Prod.fst) → (ps.map Prod.fst).Nodup →
    (∀ kv ∈ ps, kv.2.name = kv.1) →
    List.foldl applyLine ⟨a, b, c, cmd, sg, fl, cfg⟩ ((ps.map cfgLines).flatten) =
      ⟨a, b, c, cmd, sg, fl, cfg ++ ps⟩ := by
  induction ps with
  | nil => intro a b c cmd sg fl cfg _ _ _; simp
  | cons kv ps ih =>
      obtain ⟨k, o⟩ := kv
      intro a b c cmd sg fl cfg hfresh hnodup hnames
      have hk : k ∉ cfg.map Prod.fst := hfresh k (by simp)
      have hname : o.name = k := hnames (k, o) (by simp)
      rw [List.map_cons, List.flatten_cons, List.foldl_append,
        foldl_cfgLines k o a b c cmd sg fl cfg hk hname,
        ih a b c cmd sg fl (cfg ++ [(k, o)]) ?fresh ?nodup ?names]
      · simp
      case fresh =>
        intro k' hk'
        simp only [List.map_append, List.mem_append]
        rintro (h1 | h2)
        · exact hfresh k' (by simp [hk']) h1
        · have : k' = k := by simpa using h2
          rw [List.map_cons, List.nodup_cons] at hnodup
          exact hnodup.1 (this ▸ hk')
      case nodup =>
        rw [List.map_cons, List.nodup_cons] at hnodup
        exact hnodup.2
      case names =>
        intro kv hkv
        exact hnames kv (by simp [hkv])

theorem loadConfig_saveAsConfig (m : Manual)
    (h1 : (m.commandline_options.map Prod.fst).Nodup)
    (h2 : (m.signals.map Prod.fst).Nodup)
    (h3 : (m.files.map Prod.fst).Nodup)
    (h4 : (m.config_options.map Prod.fst).Nodup)
    (h5 : ∀ kv ∈ m.config_options, kv.2.name = kv.1) :
    loadConfig (saveAsConfig m) = m := by
  obtain ⟨a, b, c, cmd, sg, fl, cfg⟩ := m
  simp only [saveAsConfig, loadConfig] at *
  rw [List.foldl_append, List.foldl_append, List.foldl_append, List.foldl_append]
  have scalars : List.foldl applyLine Manual.empty
      [(FlatKey.nameK, flattenStr a), (FlatKey.synopsisK, flattenStr b),
       (FlatKey.descriptionK, flattenStr c)] = ⟨a, b, c, [], [], [], []⟩ := by
    simp only [List.foldl_cons, List.foldl_nil, applyLine, unflattenStr_flattenStr]
    rfl
  rw [scalars,
    foldl_cmd_stage cmd a b c [] [] [] [] (by simp) h1, List.nil_append,
    foldl_signal_stage sg a b c cmd [] [] [] (by simp) h2, List.nil_append,
    foldl_file_stage fl a b c cmd sg [] [] (by simp) h3, List.nil_append,
    foldl_cfg_stage cfg a b c cmd sg fl [] (by simp) h4 h5]
  simp

/-- Modelled from the spec: attach explicit, monotonically increasing sequence
numbers to a mapping's rows, starting at `n` (§4.4: relational storage has no
inherent order, so save persists an explicit order column). -/
def seqFrom {α : Type} (n : Nat) : List α → List (Nat × α)
  | [] => []
  | a :: as => (n, a) :: seqFrom (n + 1) as

/-- Modelled from the spec: insert one row into a list sorted by its sequence
number (used by load to reconstruct insertion order from the `seq` column). -/
def insertBySeq {α : Type} (x : Nat × α) : List (Nat × α) → List (Nat × α)
  | [] => [x]
  | y :: ys => if x.1 < y.1 then x :: y :: ys else y :: insertBySeq x ys

/-- Modelled from the spec: sort rows by their sequence number; load orders each
mapping table by `seq` before rebuilding the ordered mapping (§4.4). -/
def sortBySeq {α : Type} (l : List (Nat × α)) : List (Nat × α) :=
  l.foldr insertBySeq []

/-- Modelled from the spec: the `seq` column is monotonically increasing over the
stored rows. -/
def seqIncr {α : Type} : List (Nat × α) → Bool
  | [] => true
  | [_] => true
  | a :: b :: rest => decide (a.1 < b.1) && seqIncr (b :: rest)

theorem seqIncr_cons {α : Type} (a b : Nat × α) (rest : List (Nat × α)) :
    seqIncr (a :: b :: rest) = (decide (a.1 < b.1) && seqIncr (b :: rest)) := rfl

theorem seqIncr_seqFrom {α : Type} (l : List α) : ∀ n : Nat, seqIncr (seqFrom n l) = true := by
  induction l with
  | nil => intro n; rfl
  | cons a as ih =>
      intro n
      cases as with
      | nil => rfl
      | cons b bs =>
          rw [seqFrom, seqFrom, seqIncr_cons, ← seqFrom]
          have h1 : decide (n < n + 1) = true := by simp
          rw [h1, Bool.true_and]
          exact ih (n + 1)

theorem sortBySeq_of_incr {α : Type} (l : List (Nat × α)) (h : seqIncr l = true) :
    sortBySeq l = l := by
  induction l with
  | nil => rfl
  | cons x xs ih =>
      have hxs : seqIncr xs = true := by
        cases xs with
        | nil => rfl
        | cons y ys =>
            rw [seqIncr_cons, Bool.and_eq_true] at h
            exact h.2
      have : sortBySeq (x :: xs) = insertBySeq x (sortBySeq xs) := rfl
      rw [this, ih hxs]
      cases xs with
      | nil => rfl
      | cons y ys =>
          rw [seqIncr_cons, Bool.and_eq_true, decide_eq_true_eq] at h
          simp [insertBySeq, h.1]

theorem map_snd_seqFrom {α : Type} (l : List α) : ∀ n : Nat, (seqFrom n l).map Prod.snd = l := by
  induction l with
  | nil => intro n; rfl
  | cons a as ih =>
      intro n
      rw [seqFrom, List.map_cons, ih (n + 1)]

/-- Modelled from the spec and `test_query`: the relational single-file database
produced by the sqlite backend.  One table holds the scalar manual fields and
one table per ordered mapping carries an explicit `seq` column (§4.4, §6).  The
config-options table is named `torrc`, as required by the unit test
`test_query` in `test/unit/manual.py`, which reads
`SELECT description FROM torrc WHERE name="CookieAuthFile"` from a saved
instance (the spec's §6 calls this table `config_options`). -/
structure Db where
  manualT : List (String × String)
  commandline_options : List (Nat × String × String)
  signals : List (Nat × String × String)
  files : List (Nat × String × String)
  torrc : List (Nat × String × String × String × String × String)
  deriving DecidableEq

/-- Modelled from the spec: the `torrc` row stored for one config option
(name, category, usage, summary, description columns, §6). -/
def encodeTorrcRow (kv : String × ConfigOption) :
    String × String × String × String × String :=
  (kv.2.name, categoryStr kv.2.category, kv.2.usage, kv.2.summary, kv.2.description)

/-- Modelled from the spec: rebuild one config-option mapping entry from a
`torrc` row; the mapping key is the stored name (§4.4). -/
def decodeTorrcRow (t : String × String × String × String × String) :
    String × ConfigOption :=
  (t.1, ⟨t.1, categoryOfString t.2.1, t.2.2.1, t.2.2.2.1, t.2.2.2.2⟩)

/-- Modelled from the spec: saving a `Manual` in the relational backend; each
mapping table receives rows numbered by a monotonically increasing `seq`
starting at 0, in document order (§4.4). -/
def saveAsSqlite (m : Manual) : Db :=
  { manualT := [("name", m.name), ("synopsis", m.synopsis), ("description", m.description)]
  , commandline_options := seqFrom 0 m.commandline_options
  , signals := seqFrom 0 m.signals
  , files := seqFrom 0 m.files
  , torrc := seqFrom 0 (m.config_options.map encodeTorrcRow) }

/-- Modelled from the spec: read one scalar field from the `manual(field, value)`
table; missing fields resolve to the empty default (§4.4). -/
def lookupField (rows : List (String × String)) (f : String) : String :=
  match rows.find? (fun r => r.1 = f) with
  | some r => r.2
  | none => ""

/-- Modelled from the spec: loading a `Manual` from the relational backend;
every mapping table is ordered by its `seq` column before the ordered mapping
is rebuilt, so `seq` alone fixes reconstruction order (§4.4). -/
def loadSqlite (db : Db) : Manual :=
  { name := lookupField db.manualT "name"
  , synopsis := lookupField db.manualT "synopsis"
  , description := lookupField db.manualT "description"
  , commandline_options := (sortBySeq db.commandline_options).map Prod.snd
  , signals := (sortBySeq db.signals).map Prod.snd
  , files := (sortBySeq db.files).map Prod.snd
  , config_options := (sortBySeq db.torrc).map (fun r => decodeTorrcRow r.2) }

theorem map_decode_seqFrom (l : List (String × String × String × String × String)) :
    ∀ n : Nat, (seqFrom n l).map (fun r => decodeTorrcRow r.2) = l.map decodeTorrcRow := by
  induction l with
  | nil => intro n; rfl
  | cons a as ih =>
      intro n
      rw [seqFrom, List.map_cons, ih (n + 1), List.map_cons]

theorem map_decode_encode (cfg : List (String × ConfigOption))
    (h5 : ∀ kv ∈ cfg, kv.2.name = kv.1) :
    (cfg.map encodeTorrcRow).map decodeTorrcRow = cfg := by
  induction cfg with
  | nil => rfl
  | cons kv rest ih =>
      obtain ⟨k, o⟩ := kv
      obtain ⟨nm, oc, ou, os, od⟩ := o
      have hk : nm = k := h5 (k, ⟨nm, oc, ou, os, od⟩) (by simp)
      subst hk
      rw [List.map_cons, List.map_cons, ih (fun kv hkv => h5 kv (by simp [hkv]))]
      simp [encodeTorrcRow, decodeTorrcRow, categoryOfString_categoryStr]

theorem loadSqlite_saveAsSqlite (m : Manual)
    (h5 : ∀ kv ∈ m.config_options, kv.2.name = kv.1) :
    loadSqlite (saveAsSqlite m) = m := by
  obtain ⟨a, b, c, cmd, sg, fl, cfg⟩ := m
  simp only [loadSqlite, saveAsSqlite]
  rw [sortBySeq_of_incr _ (seqIncr_seqFrom _ 0),
    sortBySeq_of_incr _ (seqIncr_seqFrom _ 0),
    sortBySeq_of_incr _ (seqIncr_seqFrom _ 0),
    sortBySeq_of_incr _ (seqIncr_seqFrom _ 0),
    map_snd_seqFrom, map_snd_seqFrom, map_snd_seqFrom,
    map_decode_seqFrom, map_decode_encode cfg h5]
  rfl

/-- Modelled from the spec: a named-table, named-column view of the relational
database file, used to state schema properties and to run read queries.  Table
and column names follow §6 of the spec except for the config-options table,
which is named `torrc` (pinned by `test_query` in `test/unit/manual.py`). -/
def Db.tables (db : Db) : List (String × List (List (String × String))) :=
  [ ("manual", db.manualT.map (fun r => [("field", r.1), ("value", r.2)]))
  , ("commandline_options", db.commandline_options.map (fun r =>
      [("seq", toString r.1), ("flag", r.2.1), ("description", r.2.2)]))
  , ("signals", db.signals.map (fun r =>
      [("seq", toString r.1), ("name", r.2.1), ("description", r.2.2)]))
  , ("files", db.files.map (fun r =>
      [("seq", toString r.1), ("path", r.2.1), ("description", r.2.2)]))
  , ("torrc", db.torrc.map (fun r =>
      [("seq", toString r.1), ("name", r.2.1), ("category", r.2.2.1),
       ("usage", r.2.2.2.1), ("summary", r.2.2.2.2.1), ("description", r.2.2.2.2.2)])) ]

/-- Modelled from the spec: the rows of a named table of the database (empty for
an unknown table name). -/
def tableRows (db : Db) (t : String) : List (List (String × String)) :=
  match db.tables.find? (fun x => x.1 = t) with
  | some x => x.2
  | none => []

/-- Modelled from the spec: a `Manual` with unicode text, multi-paragraph
descriptions and sentinel-like substrings, used as a concrete round-trip
witness (§4.4: the round-trip law must hold for such values). -/
def exManual : Manual :=
  { name := "tor - The second-generation onion router"
  , synopsis := "tor [OPTION value]..."
  , description := "Tor is a connection-oriented anonymizing communication service with unicode: caf\u00e9 \u03b4\u03b9\u03b1\u03b4\u03af\u03ba\u03c4\u03c5\u03bf.\n\nSecond paragraph \\n with a sentinel-like substring."
  , commandline_options :=
      [("-f FILE", "Specify a new configuration file."),
       ("-h, -help", "Display a short help message and exit.")]
  , signals := [("SIGHUP", "Reload its configuration.")]
  , files := [("@CONFDIR@/torrc", "The configuration file.")]
  , config_options :=
      [("BandwidthRate", ⟨"BandwidthRate", Category.GENERAL,
          "N bytes|KBytes|MBytes|GBytes|KBits|MBits|GBits",
          "Average bandwidth usage limit",
          "A token bucket limits the average incoming bandwidth usage.\n\nWith this option other formats are also supported."⟩),
       ("Bridge", ⟨"Bridge", Category.CLIENT, "[transport] IP:ORPort [fingerprint]",
          "", "When set along with UseBridges, use the relay as a bridge."⟩)]
  }

/-- Claim C1: for every well-formed `Manual` value `m` (well-formedness states
exactly the ordered-mapping invariants of the model: mapping keys are unique
and each config option's stored name equals its key) and for each of the two
persistence backends, loading the result of saving `m` yields a `Manual` equal
to `m` under the order-sensitive deep equality of the model, so the reloaded
ordered mappings iterate in exactly the original insertion order. -/
theorem C1_round_trip (m : Manual)
    (h1 : (m.commandline_options.map Prod.fst).Nodup)
    (h2 : (m.signals.map Prod.fst).Nodup)
    (h3 : (m.files.map Prod.fst).Nodup)
    (h4 : (m.config_options.map Prod.fst).Nodup)
    (h5 : ∀ kv ∈ m.config_options, kv.2.name = kv.1) :
    loadConfig (saveAsConfig m) = m ∧ loadSqlite (saveAsSqlite m) = m :=
  ⟨loadConfig_saveAsConfig m h1 h2 h3 h4 h5, loadSqlite_saveAsSqlite m h5⟩

/-- Witness for C1 at a concrete `Manual` containing unicode text,
multi-paragraph descriptions and sentinel-like substrings. -/
theorem C1_round_trip_witness :
    loadConfig (saveAsConfig exManual) = exManual ∧
      loadSqlite (saveAsSqlite exManual) = exManual :=
  C1_round_trip exManual (by decide) (by decide) (by decide) (by decide) (by decide)

theorem all_cols_map {α : Type} (l : List α) (f : α → List (String × String))
    (cols : List String) (h : ∀ a, (f a).map Prod.fst = cols) :
    ((l.map f).all (fun row => decide (row.map Prod.fst = cols))) = true := by
  rw [List.all_eq_true]
  intro row hrow
  simp only [List.mem_map] at hrow
  obtain ⟨r, _, hr⟩ := hrow
  subst hr
  simp [h r]

/-- Counterexample to claim C2 as stated: the saved relational database contains
no table named `config_options`; the config-options table is named `torrc`
(the name the unit test `test_query` reads from). -/
theorem C2_counterexample :
    ("config_options" ∉ (saveAsSqlite Manual.empty).tables.map Prod.fst) ∧
      "torrc" ∈ (saveAsSqlite Manual.empty).tables.map Prod.fst := by
  decide

/-- Claim C2 (amended): a `Manual` saved to the relational backend is stored in
a single-file database containing tables named `manual(field, value)`,
`commandline_options(seq, flag, description)`, `signals(seq, name,
description)`, `files(seq, path, description)`, and `torrc(seq, name, category,
usage, summary, description)` — the config-options table is named `torrc`, not
`config_options` — where `seq` is a monotonically increasing integer that fixes
reconstruction order. -/
theorem C2_schema (m : Manual) :
    (saveAsSqlite m).tables.map Prod.fst =
      ["manual", "commandline_options", "signals", "files", "torrc"]
    ∧ ((tableRows (saveAsSqlite m) "manual").all (fun row =>
        decide (row.map Prod.fst = ["field", "value"])) = true)
    ∧ ((tableRows (saveAsSqlite m) "commandline_options").all (fun row =>
        decide (row.map Prod.fst = ["seq", "flag", "description"])) = true)
    ∧ ((tableRows (saveAsSqlite m) "signals").all (fun row =>
        decide (row.map Prod.fst = ["seq", "name", "description"])) = true)
    ∧ ((tableRows (saveAsSqlite m) "files").all (fun row =>
        decide (row.map Prod.fst = ["seq", "path", "description"])) = true)
    ∧ ((tableRows (saveAsSqlite m) "torrc").all (fun row =>
        decide (row.map Prod.fst =
          ["seq", "name", "category", "usage", "summary", "description"])) = true)
    ∧ seqIncr (saveAsSqlite m).commandline_options = true
    ∧ seqIncr (saveAsSqlite m).signals = true
    ∧ seqIncr (saveAsSqlite m).files = true
    ∧ seqIncr (saveAsSqlite m).torrc = true := by
  refine ⟨rfl, ?_, ?_, ?_, ?_, ?_, seqIncr_seqFrom _ 0, seqIncr_seqFrom _ 0,
    seqIncr_seqFrom _ 0, seqIncr_seqFrom _ 0⟩
  · exact all_cols_map (saveAsSqlite m).manualT _ _ (fun r => rfl)
  · exact all_cols_map (saveAsSqlite m).commandline_options _ _ (fun r => rfl)
  · exact all_cols_map (saveAsSqlite m).signals _ _ (fun r => rfl)
  · exact all_cols_map (saveAsSqlite m).files _ _ (fun r => rfl)
  · exact all_cols_map (saveAsSqlite m).torrc _ _ (fun r => rfl)

/-- Modelled from the spec: leading-space indentation depth of a line. -/
def indentOf (s : String) : Nat :=
  (s.data.takeWhile (fun c => c == ' ')).length

/-- Modelled from the spec: a top-level section header of the rendered man text
is a nonempty unindented line (§4.2 step 1). -/
def isHeaderLine (l : String) : Bool :=
  decide (l ≠ "") && decide (indentOf l = 0)

/-- Modelled from the spec: strip leading and trailing spaces from a line. -/
def trimSpaces (s : String) : String :=
  String.mk (((s.data.dropWhile (fun c => c == ' ')).reverse.dropWhile
    (fun c => c == ' ')).reverse)

/-- Modelled from the spec: the leading whitespace-delimited token of a trimmed
line (§4.2 step 5: an option block's first line is split at the first
whitespace after the name token). -/
def firstToken (s : String) : String :=
  String.mk (s.data.takeWhile (fun c => c != ' '))

/-- Modelled from the spec: the remainder of a trimmed line after its leading
token and the separating spaces. -/
def restAfterToken (s : String) : String :=
  String.mk ((s.data.dropWhile (fun c => c != ' ')).dropWhile (fun c => c == ' '))

/-- Modelled from the spec: whether string `s` ends with `t`. -/
def endsWithStr (s t : String) : Bool :=
  decide (s.data.reverse.take t.data.length = t.data.reverse)

/-- Modelled from the spec: append one more (already trimmed) wrapped line to an
accumulated description, joining wrapped lines with single spaces and encoding
a blank line as a single paragraph separator (§4.2 step 2). -/
def appendDesc (desc t : String) : String :=
  if t = "" then (if desc = "" then desc else desc ++ "\n\n")
  else if desc = "" then t
  else if endsWithStr desc "\n\n" then desc ++ t
  else desc ++ " " ++ t

/-- Modelled from the spec: join the wrapped lines of a prose section into one
string with single-space joins and blank-line paragraph breaks (§4.2 step 2). -/
def joinLines (ls : List String) : String :=
  ls.foldl (fun acc l => appendDesc acc (trimSpaces l)) ""

/-- Modelled from the spec: group the man-text lines into sections delimited by
header lines; the running accumulator keeps the current section's body in
reverse (§4.2 step 1). -/
def splitSectionsGo : List String → String → List String → List (String × List String)
  | [], h, acc => [(h, acc.reverse)]
  | l :: rest, h, acc =>
      if isHeaderLine l then (h, acc.reverse) :: splitSectionsGo rest l []
      else splitSectionsGo rest h (l :: acc)

/-- Modelled from the spec: split the man-text lines into
(header, body) sections; content before the first header is ignored (§4.2). -/
def splitSections : List String → List (String × List String)
  | [] => []
  | l :: rest => if isHeaderLine l then splitSectionsGo rest l [] else splitSections rest

/-- Modelled from the spec: the body of the first section carrying the given
title; a section that is not found is simply absent, yielding no lines (§4.2). -/
def sectionBody (title : String) (secs : List (String × List String)) : List String :=
  match secs.find? (fun s => s.1 = title) with
  | some s => s.2
  | none => []

/-- Modelled from the spec: flush the entry being accumulated into the ordered
mapping (last-write-wins on duplicate keys, §3). -/
def flushEntry (cur : Option (String × String)) (acc : List (String × String)) :
    List (String × String) :=
  match cur with
  | none => acc
  | some kd => odSet acc kd.1 kd.2

/-- Modelled from the spec: segment a section body into entries delimited by
lines whose trimmed text matches the entry pattern; following lines are
space-joined into the entry's description (§4.2 steps 3-4). -/
def parseEntriesGo (isEntryTok : String → Bool) :
    List String → Option (String × String) → List (String × String) →
    List (String × String)
  | [], cur, acc => flushEntry cur acc
  | l :: rest, cur, acc =>
      if trimSpaces l = "" then
        match cur with
        | none => parseEntriesGo isEntryTok rest none acc
        | some kd => parseEntriesGo isEntryTok rest (some (kd.1, appendDesc kd.2 "")) acc
      else if isEntryTok (trimSpaces l) then
        parseEntriesGo isEntryTok rest (some (trimSpaces l, "")) (flushEntry cur acc)
      else
        match cur with
        | none => parseEntriesGo isEntryTok rest none acc
        | some kd =>
            parseEntriesGo isEntryTok rest (some (kd.1, appendDesc kd.2 (trimSpaces l))) acc

/-- Modelled from the spec: parse the COMMAND-LINE OPTIONS, SIGNALS or FILES
section body into an ordered mapping (§4.2 steps 3-4). -/
def parseEntries (isEntryTok : String → Bool) (body : List String) :
    List (String × String) :=
  parseEntriesGo isEntryTok body none []

/-- Modelled from the spec: whether a trimmed line starts a command-line option
entry (a token starting with a dash, §4.2 step 3). -/
def isCmdToken (t : String) : Bool :=
  match t.data with
  | [] => false
  | a :: _ => a == '-'

/-- Modelled from the spec: whether a trimmed line starts a signal entry (an
uppercase SIG-prefixed token, §4.2 step 3). -/
def isSignalTok (t : String) : Bool :=
  decide (t.data.take 3 = ['S', 'I', 'G'])

/-- Modelled from the spec: whether a trimmed line starts a file entry (a
path-shaped leading token, §4.2 step 4). -/
def isFileToken (t : String) : Bool :=
  (firstToken t).data.any (fun c => c == '/')

/-- Modelled from the spec: case-insensitive lowering used by the category
classifier (§4.1). -/
def lowerStr (s : String) : String :=
  String.mk (s.data.map Char.toLower)

/-- Modelled from the spec: the Category Classifier (§4.1), a total pure
function over a fixed case-insensitive lookup table of subsection titles of the
configuration-options chapter; unknown titles map to UNKNOWN. -/
def classify (title : String) : Category :=
  if lowerStr title = "general options" then Category.GENERAL
  else if lowerStr title = "client options" then Category.CLIENT
  else if lowerStr title = "server options" then Category.RELAY
  else if lowerStr title = "directory server options" then Category.DIRECTORY_AUTHORITY
  else if lowerStr title = "directory authority server options" then Category.AUTHENTICATION
  else if lowerStr title = "testing network options" then Category.TESTING
  else Category.UNKNOWN

/-- Modelled from the spec: the configuration-options chapter consists of the
sections whose titles end in OPTIONS, other than the COMMAND-LINE OPTIONS
section (§4.2 step 5); their titles are the subsection headers the classifier
sees. -/
def isConfigSectionTitle (t : String) : Bool :=
  endsWithStr t "OPTIONS" && decide (t ≠ "COMMAND-LINE OPTIONS")

/-- Modelled from the spec: indentation depth at which a config option block
starts inside a configuration-options section; deeper lines continue the
current block's description (§4.2 step 5). -/
def optionIndent : Nat := 4

/-- Modelled from the spec: flush the config option block being accumulated.
`summary` is never populated by the parser (§4.2 step 5). -/
def flushOpt (cat : Category) (cur : Option (String × String × String))
    (acc : List (String × ConfigOption)) : List (String × ConfigOption) :=
  match cur with
  | none => acc
  | some nud => odSet acc nud.1 ⟨nud.1, cat, nud.2.1, "", nud.2.2⟩

/-- Modelled from the spec: parse one configuration-options section body under a
fixed current category: a line at `optionIndent` starts a new option block,
supplying name and usage; deeper lines append to the description; blank lines
become paragraph breaks (§4.2 step 5). -/
def parseConfigGo (cat : Category) :
    List String → Option (String × String × String) → List (String × ConfigOption) →
    List (String × ConfigOption)
  | [], cur, acc => flushOpt cat cur acc
  | l :: rest, cur, acc =>
      if l = "" then
        match cur with
        | none => parseConfigGo cat rest none acc
        | some nud =>
            parseConfigGo cat rest (some (nud.1, nud.2.1, appendDesc nud.2.2 "")) acc
      else if indentOf l = optionIndent then
        parseConfigGo cat rest
          (some (firstToken (trimSpaces l), restAfterToken (trimSpaces l), ""))
          (flushOpt cat cur acc)
      else
        match cur with
        | none => parseConfigGo cat rest none acc
        | some nud =>
            parseConfigGo cat rest
              (some (nud.1, nud.2.1, appendDesc nud.2.2 (trimSpaces l))) acc

/-- Modelled from the spec: parse a configuration-options section under the
category assigned by the classifier to its header (§4.2 step 5). -/
def parseConfigSection (cat : Category) (body : List String) :
    List (String × ConfigOption) :=
  parseConfigGo cat body none []

/-- Modelled from the spec: the Man-Text Parser (§4.2), `parse(lines) ->
Manual`.  It locates the fixed top-level sections by exact title match, joins
prose sections, segments entry sections, and parses every configuration-options
section under the classifier's category for its title; sections not found are
simply absent.  A total function: malformed input degrades to empty fields. -/
def parse (lines : List String) : Manual :=
  { name := joinLines (sectionBody "NAME" (splitSections lines))
  , synopsis := joinLines (sectionBody "SYNOPSIS" (splitSections lines))
  , description := joinLines (sectionBody "DESCRIPTION" (splitSections lines))
  , commandline_options :=
      parseEntries isCmdToken (sectionBody "COMMAND-LINE OPTIONS" (splitSections lines))
  , signals := parseEntries isSignalTok (sectionBody "SIGNALS" (splitSections lines))
  , files := parseEntries isFileToken (sectionBody "FILES" (splitSections lines))
  , config_options :=
      ((splitSections lines).filter (fun s => isConfigSectionTitle s.1)).foldl
        (fun acc s => acc ++ parseConfigSection (classify s.1) s.2) [] }

/-- Claim C4: parsing an entirely empty input (zero lines) succeeds — the parser
is a total function, so it cannot raise — and returns a `Manual` whose name,
synopsis and description are empty strings and whose commandline_options,
signals, files and config_options mappings are all empty. -/
theorem C4_empty_input :
    parse [] = Manual.empty ∧
    (parse []).name = "" ∧ (parse []).synopsis = "" ∧ (parse []).description = "" ∧
    (parse []).commandline_options = [] ∧ (parse []).signals = [] ∧
    (parse []).files = [] ∧ (parse []).config_options = [] :=
  ⟨rfl, rfl, rfl, rfl, rfl, rfl, rfl, rfl⟩

theorem strEta (s : String) : String.mk s.data = s := by
  cases s
  rfl

theorem str_eq_empty_iff (s : String) : s = "" ↔ s.data = [] := by
  cases s with
  | mk d =>
      show String.mk d = String.mk [] ↔ d = []
      constructor
      · intro h
        injection h
      · intro h
        rw [h]

theorem takeWhile_spaces_append (l1 l2 : List Char) (h1 : ∀ a ∈ l1, a = ' ')
    (h2 : l2.head? ≠ some ' ') :
    (l1 ++ l2).takeWhile (fun c => c == ' ') = l1 := by
  induction l1 with
  | nil =>
      simp only [List.nil_append]
      cases l2 with
      | nil => rfl
      | cons a as =>
          have ha : a ≠ ' ' := fun he => h2 (by rw [List.head?_cons, he])
          simp [List.takeWhile_cons, ha]
  | cons a l1 ih =>
      have ha : a = ' ' := h1 a (List.mem_cons_self a l1)
      subst ha
      simp [List.takeWhile_cons, ih (fun x hx => h1 x (List.mem_cons_of_mem _ hx))]

theorem dropWhile_spaces_append (l1 l2 : List Char) (h1 : ∀ a ∈ l1, a = ' ')
    (h2 : l2.head? ≠ some ' ') :
    (l1 ++ l2).dropWhile (fun c => c == ' ') = l2 := by
  induction l1 with
  | nil =>
      simp only [List.nil_append]
      cases l2 with
      | nil => rfl
      | cons a as =>
          have ha : a ≠ ' ' := fun he => h2 (by rw [List.head?_cons, he])
          simp [List.dropWhile_cons, ha]
  | cons a l1 ih =>
      have ha : a = ' ' := h1 a (List.mem_cons_self a l1)
      subst ha
      simp [List.dropWhile_cons, ih (fun x hx => h1 x (List.mem_cons_of_mem _ hx))]

theorem dropWhile_of_head_ne (l : List Char) (h : l.head? ≠ some ' ') :
    l.dropWhile (fun c => c == ' ') = l := by
  cases l with
  | nil => rfl
  | cons a as =>
      have ha : a ≠ ' ' := fun he => h (by rw [List.head?_cons, he])
      simp [List.dropWhile_cons, ha]

theorem takeWhile_nonspace_append (l1 l2 : List Char) (h : ∀ a ∈ l1, a ≠ ' ') :
    (l1 ++ (' ' :: l2)).takeWhile (fun c => c != ' ') = l1 := by
  induction l1 with
  | nil => simp [List.takeWhile_cons]
  | cons a l1 ih =>
      have ha : a ≠ ' ' := h a (List.mem_cons_self a l1)
      simp [List.takeWhile_cons, ha, ih (fun x hx => h x (List.mem_cons_of_mem _ hx))]

theorem dropWhile_nonspace_append (l1 l2 : List Char) (h : ∀ a ∈ l1, a ≠ ' ') :
    (l1 ++ (' ' :: l2)).dropWhile (fun c => c != ' ') = ' ' :: l2 := by
  induction l1 with
  | nil => simp [List.dropWhile_cons]
  | cons a l1 ih =>
      have ha : a ≠ ' ' := h a (List.mem_cons_self a l1)
      simp [List.dropWhile_cons, ha, ih (fun x hx => h x (List.mem_cons_of_mem _ hx))]

theorem splitSections_cons (l : String) (rest : List String) :
    splitSections (l :: rest) =
      if isHeaderLine l then splitSectionsGo rest l [] else splitSections rest := rfl

theorem splitSectionsGo_nil (h : String) (acc : List String) :
    splitSectionsGo [] h acc = [(h, acc.reverse)] := rfl

theorem splitSectionsGo_cons (l : String) (rest : List String) (h : String)
    (acc : List String) :
    splitSectionsGo (l :: rest) h acc =
      if isHeaderLine l then (h, acc.reverse) :: splitSectionsGo rest l []
      else splitSectionsGo rest h (l :: acc) := rfl

theorem parseConfigGo_nil (cat : Category) (cur : Option (String × String × String))
    (acc : List (String × ConfigOption)) :
    parseConfigGo cat [] cur acc = flushOpt cat cur acc := rfl

theorem parseConfigGo_cons_none (cat : Category) (l : String) (rest : List String)
    (acc : List (String × ConfigOption)) :
    parseConfigGo cat (l :: rest) none acc =
      if l = "" then parseConfigGo cat rest none acc
      else if indentOf l = optionIndent then
        parseConfigGo cat rest
          (some (firstToken (trimSpaces l), restAfterToken (trimSpaces l), ""))
          (flushOpt cat none acc)
      else parseConfigGo cat rest none acc := rfl

theorem parseConfigGo_cons_some (cat : Category) (l : String) (rest : List String)
    (n1 u1 d1 : String) (acc : List (String × ConfigOption)) :
    parseConfigGo cat (l :: rest) (some (n1, u1, d1)) acc =
      if l = "" then parseConfigGo cat rest (some (n1, u1, appendDesc d1 "")) acc
      else if indentOf l = optionIndent then
        parseConfigGo cat rest
          (some (firstToken (trimSpaces l), restAfterToken (trimSpaces l), ""))
          (flushOpt cat (some (n1, u1, d1)) acc)
      else parseConfigGo cat rest (some (n1, u1, appendDesc d1 (trimSpaces l))) acc := rfl

/-- Claim C3: an option block parsed from the configuration-options chapter
under an unrecognized subsection header (any nonempty unindented header line
whose title the classifier cannot categorize, hence outside every recognized
subsection) is retained: the parser keeps an entry for the detected name token
with category UNKNOWN, the name and usage split from the block's first line and
the description taken from the block's following lines, and an empty summary —
the parser never populates `summary` — rather than excluding the option.  The
block is a first line at option indentation holding the space-free name token
`n` and the usage `u`, followed by a deeper description line `d`. -/
theorem C3_unknown_category (h n u d : String)
    (hhdr : isConfigSectionTitle h = true)
    (hind : indentOf h = 0)
    (hne : h ≠ "")
    (hcat : classify h = Category.UNKNOWN)
    (hn1 : n ≠ "")
    (hn2 : ∀ ch ∈ n.data, ch ≠ ' ')
    (hu1 : u ≠ "")
    (hu2 : u.data.head? ≠ some ' ')
    (hu3 : u.data.getLast? ≠ some ' ')
    (hd1 : d ≠ "")
    (hd2 : d.data.head? ≠ some ' ')
    (hd3 : d.data.getLast? ≠ some ' ') :
    parse [h, "    " ++ (n ++ (" " ++ u)), "        " ++ d] =
      { Manual.empty with config_options := [(n, ⟨n, Category.UNKNOWN, u, "", d⟩)] } := by
  have hnd : n.data ≠ [] := fun hx => hn1 ((str_eq_empty_iff n).mpr hx)
  obtain ⟨c0, cs, hcs⟩ : ∃ c0 cs, n.data = c0 :: cs := by
    cases hx : n.data with
    | nil => exact absurd hx hnd
    | cons a as => exact ⟨a, as, rfl⟩
  have hud : u.data ≠ [] := fun hx => hu1 ((str_eq_empty_iff u).mpr hx)
  have hOdata : ("    " ++ (n ++ (" " ++ u))).data =
      [' ', ' ', ' ', ' '] ++ (n.data ++ (' ' :: u.data)) := by
    rw [String.data_append, String.data_append, String.data_append]
    rfl
  have hheadnu : (n.data ++ (' ' :: u.data)).head? ≠ some ' ' := by
    rw [hcs, List.cons_append, List.head?_cons]
    intro hx
    exact hn2 c0 (by rw [hcs]; exact List.mem_cons_self c0 cs) (Option.some.inj hx)
  have hindO : indentOf ("    " ++ (n ++ (" " ++ u))) = 4 := by
    rw [indentOf, hOdata, takeWhile_spaces_append _ _ (by decide) hheadnu]
    rfl
  have hlastnu : (n.data ++ (' ' :: u.data)).getLast? ≠ some ' ' := by
    rw [List.getLast?_append_of_ne_nil n.data (by simp),
      show (' ' :: u.data) = [' '] ++ u.data from rfl,
      List.getLast?_append_of_ne_nil [' '] hud]
    exact hu3
  have htrimO : trimSpaces ("    " ++ (n ++ (" " ++ u))) =
      String.mk (n.data ++ (' ' :: u.data)) := by
    rw [trimSpaces, hOdata, dropWhile_spaces_append _ _ (by decide) hheadnu,
      dropWhile_of_head_ne _ (by rw [List.head?_reverse]; exact hlastnu),
      List.reverse_reverse]
  have hft : firstToken (String.mk (n.data ++ (' ' :: u.data))) = n := by
    rw [firstToken]
    show String.mk ((n.data ++ (' ' :: u.data)).takeWhile (fun c => c != ' ')) = n
    rw [takeWhile_nonspace_append _ _ hn2, strEta]
  have hrt : restAfterToken (String.mk (n.data ++ (' ' :: u.data))) = u := by
    rw [restAfterToken]
    show String.mk (((n.data ++ (' ' :: u.data)).dropWhile (fun c => c != ' ')).dropWhile
      (fun c => c == ' ')) = u
    rw [dropWhile_nonspace_append _ _ hn2]
    rw [show (' ' :: u.data).dropWhile (fun c => c == ' ') = u.data.dropWhile (fun c => c == ' ')
      from by simp [List.dropWhile_cons]]
    rw [dropWhile_of_head_ne _ hu2, strEta]
  have hOne : ("    " ++ (n ++ (" " ++ u))) ≠ "" := by
    intro he
    have hx : ("    " ++ (n ++ (" " ++ u))).data = [] := by rw [he]
    rw [hOdata] at hx
    simp at hx
  have hDdata : ("        " ++ d).data = [' ', ' ', ' ', ' ', ' ', ' ', ' ', ' '] ++ d.data := by
    rw [String.data_append]
  have hindD : indentOf ("        " ++ d) = 8 := by
    rw [indentOf, hDdata, takeWhile_spaces_append _ _ (by decide) hd2]
    rfl
  have htrimD : trimSpaces ("        " ++ d) = d := by
    rw [trimSpaces, hDdata, dropWhile_spaces_append _ _ (by decide) hd2,
      dropWhile_of_head_ne _ (by rw [List.head?_reverse]; exact hd3),
      List.reverse_reverse, strEta]
  have hDne : ("        " ++ d) ≠ "" := by
    intro he
    have hx : ("        " ++ d).data = [] := by rw [he]
    rw [hDdata] at hx
    simp at hx
  have hHL : isHeaderLine h = true := by
    simp [isHeaderLine, hne, hind]
  have hOL : isHeaderLine ("    " ++ (n ++ (" " ++ u))) = false := by
    simp [isHeaderLine, hindO]
  have hDL : isHeaderLine ("        " ++ d) = false := by
    simp [isHeaderLine, hindD]
  have hsecs : splitSections [h, "    " ++ (n ++ (" " ++ u)), "        " ++ d] =
      [(h, ["    " ++ (n ++ (" " ++ u)), "        " ++ d])] := by
    rw [splitSections_cons, if_pos hHL, splitSectionsGo_cons, if_neg (by simp [hOL]),
      splitSectionsGo_cons, if_neg (by simp [hDL]), splitSectionsGo_nil]
    rfl
  have hOpt : endsWithStr h "OPTIONS" = true := by
    have hx := hhdr
    rw [isConfigSectionTitle, Bool.and_eq_true] at hx
    exact hx.1
  have hCL : h ≠ "COMMAND-LINE OPTIONS" := by
    have hx := hhdr
    rw [isConfigSectionTitle, Bool.and_eq_true] at hx
    simpa using hx.2
  have hNAME : h ≠ "NAME" := by
    intro he
    rw [he] at hOpt
    exact absurd hOpt (by decide)
  have hSYN : h ≠ "SYNOPSIS" := by
    intro he
    rw [he] at hOpt
    exact absurd hOpt (by decide)
  have hDESC : h ≠ "DESCRIPTION" := by
    intro he
    rw [he] at hOpt
    exact absurd hOpt (by decide)
  have hSIG : h ≠ "SIGNALS" := by
    intro he
    rw [he] at hOpt
    exact absurd hOpt (by decide)
  have hFIL : h ≠ "FILES" := by
    intro he
    rw [he] at hOpt
    exact absurd hOpt (by decide)
  have hbAny : ∀ t : String, h ≠ t →
      sectionBody t [(h, ["    " ++ (n ++ (" " ++ u)), "        " ++ d])] = [] := by
    intro t ht
    simp [sectionBody, List.find?, ht]
  have hfil : [(h, ["    " ++ (n ++ (" " ++ u)), "        " ++ d])].filter
      (fun s => isConfigSectionTitle s.1) =
      [(h, ["    " ++ (n ++ (" " ++ u)), "        " ++ d])] := by
    simp [List.filter, hhdr]
  have happ : appendDesc "" d = d := by
    rw [appendDesc, if_neg hd1, if_pos rfl]
  have hcfg : parseConfigSection (classify h)
      ["    " ++ (n ++ (" " ++ u)), "        " ++ d] =
      [(n, ⟨n, Category.UNKNOWN, u, "", d⟩)] := by
    rw [hcat, parseConfigSection, parseConfigGo_cons_none, if_neg hOne,
      if_pos (show indentOf ("    " ++ (n ++ (" " ++ u))) = optionIndent from by
        rw [hindO]; rfl),
      htrimO, hft, hrt, parseConfigGo_cons_some, if_neg hDne,
      if_neg (show ¬ indentOf ("        " ++ d) = optionIndent from by
        rw [hindD]; decide),
      htrimD, happ, parseConfigGo_nil]
    rfl
  simp only [parse, hsecs]
  rw [hbAny "NAME" hNAME, hbAny "SYNOPSIS" hSYN, hbAny "DESCRIPTION" hDESC,
    hbAny "COMMAND-LINE OPTIONS" hCL, hbAny "SIGNALS" hSIG, hbAny "FILES" hFIL, hfil]
  rw [List.foldl_cons, List.foldl_nil, hcfg]
  rfl

/-- Witness for C3 at a concrete unrecognized subsection header and the option
block of the `tor_man_with_unknown` fixture. -/
theorem C3_unknown_category_witness :
    parse ["SPIFFY OPTIONS",
      "    " ++ ("SpiffyNewOption" ++ (" " ++ "transport exec path-to-binary [options]")),
      "        " ++ "Description of this new option."] =
      { Manual.empty with config_options :=
          [("SpiffyNewOption", ⟨"SpiffyNewOption", Category.UNKNOWN,
            "transport exec path-to-binary [options]", "",
            "Description of this new option."⟩)] } :=
  C3_unknown_category "SPIFFY OPTIONS" "SpiffyNewOption"
    "transport exec path-to-binary [options]" "Description of this new option."
    (by decide) (by decide) (by decide) (by decide) (by decide) (by decide)
    (by decide) (by decide) (by decide) (by decide) (by decide) (by decide)

/-- Modelled from the spec: the read statements the query interface evaluates
over the database model.  Parsing caller-supplied statement text is the
external backend's job (§4.5), so statement parsing is a supplied function and
only parsed statements are interpreted here. -/
inductive SqlStmt where
  | selectDescByName (table : String) (nameVal : String)
  | selectAllFrom (table : String)
  deriving DecidableEq

/-- Modelled from the spec: the query interface's two distinct failure classes
(§4.5): a missing database file (an I/O failure naming the path) and a
malformed statement (carrying the backend's native diagnostic verbatim). -/
inductive QueryError where
  | ioError (msg : String)
  | operationalError (msg : String)
  deriving DecidableEq

/-- Modelled from the spec: the well-known default instance location — the
pre-populated `cached_manual.sqlite` bundled inside the installed package
(`package_data` of `setup.py` ships `stem/cached_manual.sqlite`). -/
def CACHE_PATH : String := "stem/cached_manual.sqlite"

/-- Modelled from the spec: interpret a parsed read statement over the database;
an unknown table is a backend error (§4.5). -/
def runStmt (db : Db) : SqlStmt → Except String (List (List (String × String)))
  | SqlStmt.selectDescByName t nm =>
      match db.tables.find? (fun x => x.1 = t) with
      | none => Except.error ("no such table: " ++ t)
      | some x => Except.ok ((x.2.filter (fun row =>
          (row.find? (fun c => c.1 = "name")).map Prod.snd = some nm)).map
          (fun row => row.filter (fun c => c.1 = "description")))
  | SqlStmt.selectAllFrom t =>
      match db.tables.find? (fun x => x.1 = t) with
      | none => Except.error ("no such table: " ++ t)
      | some x => Except.ok x.2

/-- Modelled from the spec: `stem.manual.query(sql_text, database_path =
default)` (§4.5).  The filesystem and the backend's statement parsing are
supplied externally.  A missing database file at the resolved path fails first,
with an I/O error naming that exact path (message pinned by
`test_query_with_missing_database`); a statement the backend cannot parse fails
with the backend's diagnostic verbatim; otherwise the statement runs once — no
retry anywhere. -/
def query (parseSql : String → Except String SqlStmt) (dbFiles : String → Option Db)
    (stmt : String) (path : Option String) :
    Except QueryError (List (List (String × String))) :=
  match dbFiles (path.getD CACHE_PATH) with
  | none => Except.error (QueryError.ioError ((path.getD CACHE_PATH) ++ " doesn\u0027t exist"))
  | some db =>
      match parseSql stmt with
      | Except.error dg => Except.error (QueryError.operationalError dg)
      | Except.ok ast =>
          match runStmt db ast with
          | Except.error dg => Except.error (QueryError.operationalError dg)
          | Except.ok rows => Except.ok rows

/-- Modelled from the spec: load failure of the persistence layer (§7). -/
inductive LoadError where
  | ioError (msg : String)
  deriving DecidableEq

/-- Modelled from the spec: the file-extension convention selecting the
relational backend (§4.4). -/
def isSqlitePath (p : String) : Bool :=
  endsWithStr p ".sqlite"

/-- Modelled from the spec: `stem.manual.Manual.from_cache(path = default)`:
resolve the optional path to the bundled default instance, pick the backend by
extension, and load (§4.4, §4.5). -/
def Manual.from_cache (configFiles : String → Option (List (FlatKey × String)))
    (dbFiles : String → Option Db) (path : Option String) : Except LoadError Manual :=
  if isSqlitePath (path.getD CACHE_PATH) then
    match dbFiles (path.getD CACHE_PATH) with
    | none => Except.error (LoadError.ioError ((path.getD CACHE_PATH) ++ " doesn\u0027t exist"))
    | some db => Except.ok (loadSqlite db)
  else
    match configFiles (path.getD CACHE_PATH) with
    | none => Except.error (LoadError.ioError ((path.getD CACHE_PATH) ++ " doesn\u0027t exist"))
    | some ls => Except.ok (loadConfig ls)

/-- Claim C6: for every path `p` at which no database file exists,
`query(statement, p)` fails with a distinct I/O error whose message names that
exact path `p` (the message is the path followed by " doesn't exist"), and does
not return an empty or default result. -/
theorem C6_missing_database (parseSql : String → Except String SqlStmt)
    (dbFiles : String → Option Db) (stmt : String) (p : String)
    (hmiss : dbFiles p = none) :
    query parseSql dbFiles stmt (some p) =
      Except.error (QueryError.ioError (p ++ " doesn\u0027t exist")) := by
  simp [query, hmiss]

/-- Witness for C6 at the concrete missing path of
`test_query_with_missing_database`. -/
theorem C6_missing_database_witness :
    query (fun _ => Except.error "") (fun _ => none) "SELECT * FROM torrc"
      (some "/no/such/path") =
      Except.error (QueryError.ioError ("/no/such/path" ++ " doesn\u0027t exist")) :=
  C6_missing_database (fun _ => Except.error "") (fun _ => none) "SELECT * FROM torrc"
    "/no/such/path" rfl

/-- Claim C7: for every statement the backend's parser rejects, the query
operation fails with a distinct error carrying the backend's native syntax
diagnostic verbatim (unmodified), and no retry is attempted — `query` runs the
statement at most once per call. -/
theorem C7_malformed_query (parseSql : String → Except String SqlStmt)
    (dbFiles : String → Option Db) (db : Db) (stmt : String) (path : Option String)
    (dg : String) (hdb : dbFiles (path.getD CACHE_PATH) = some db)
    (hparse : parseSql stmt = Except.error dg) :
    query parseSql dbFiles stmt path =
      Except.error (QueryError.operationalError dg) := by
  simp [query, hdb, hparse]

/-- Witness for C7 at the concrete malformed statement of
`test_query_on_failure` and sqlite's native diagnostic for it. -/
theorem C7_malformed_query_witness :
    query (fun _ => Except.error "near \u0022hello\u0022: syntax error")
      (fun _ => some (saveAsSqlite Manual.empty)) "hello world" (some "test.sqlite") =
      Except.error (QueryError.operationalError "near \u0022hello\u0022: syntax error") :=
  C7_malformed_query (fun _ => Except.error "near \u0022hello\u0022: syntax error")
    (fun _ => some (saveAsSqlite Manual.empty)) (saveAsSqlite Manual.empty)
    "hello world" (some "test.sqlite") "near \u0022hello\u0022: syntax error" rfl rfl

/-- Modelled from the spec and `test_query`: the description of the
`CookieAuthFile` option held by the bundled cached database. -/
def COOKIE_AUTH_FILE_DESC : String :=
  "If set, this option overrides the default location and file name for Tor\u0027s cookie file. (See CookieAuthentication above.)"

/-- Modelled from the spec: the content of the bundled, pre-populated cached
manual instance, as far as the unit tests pin it down (`test_query` reads
`CookieAuthFile`'s description from it). -/
def cachedManualSample : Manual :=
  { name := "tor - The second-generation onion router"
  , synopsis := "tor [OPTION value]..."
  , description := "Tor is a connection-oriented anonymizing communication service."
  , commandline_options := [("-f FILE", "Specify a new configuration file.")]
  , signals := [("SIGHUP", "Reload configuration.")]
  , files := [("@CONFDIR@/torrc", "The configuration file.")]
  , config_options := [("CookieAuthFile", ⟨"CookieAuthFile", Category.GENERAL,
      "Path", "Location of the authentication cookie", COOKIE_AUTH_FILE_DESC⟩)] }

/-- Modelled from the spec: the bundled `cached_manual.sqlite` database file. -/
def cachedManualDb : Db := saveAsSqlite cachedManualSample

/-- Claim C10: when no explicit database path is supplied, both the query
operation and loading the cached `Manual` resolve the default instance location
to the pre-populated `cached_manual.sqlite` file bundled inside the installed
package (`CACHE_PATH`), and a well-formed statement selecting a known option's
description against it returns a non-empty result row. -/
theorem C10_default_cache (parseSql : String → Except String SqlStmt)
    (dbFiles : String → Option Db)
    (configFiles : String → Option (List (FlatKey × String))) (stmt : String)
    (hfs : dbFiles CACHE_PATH = some cachedManualDb)
    (hp : parseSql stmt = Except.ok (SqlStmt.selectDescByName "torrc" "CookieAuthFile")) :
    query parseSql dbFiles stmt none = query parseSql dbFiles stmt (some CACHE_PATH)
    ∧ query parseSql dbFiles stmt none =
        Except.ok [[("description", COOKIE_AUTH_FILE_DESC)]]
    ∧ Manual.from_cache configFiles dbFiles none =
        Manual.from_cache configFiles dbFiles (some CACHE_PATH)
    ∧ Manual.from_cache configFiles dbFiles none = Except.ok (loadSqlite cachedManualDb)
    ∧ endsWithStr CACHE_PATH "cached_manual.sqlite" = true := by
  refine ⟨rfl, ?_, rfl, ?_, by decide⟩
  · simp only [query, Option.getD_none, hfs, hp]
    rfl
  · rw [Manual.from_cache,
      if_pos (show isSqlitePath ((none : Option String).getD CACHE_PATH) = true from by decide)]
    simp only [Option.getD_none, hfs]

/-- Statement parsing used by the C10 witness: recognizes the exact statement
`test_query` issues and rejects everything else. -/
def wParseSql : String → Except String SqlStmt := fun s =>
  if s = "SELECT description FROM torrc WHERE name=\u0022CookieAuthFile\u0022" then
    Except.ok (SqlStmt.selectDescByName "torrc" "CookieAuthFile")
  else Except.error "syntax error"

/-- Filesystem used by the C10 witness: only the bundled default instance
exists. -/
def wDbFiles : String → Option Db := fun p =>
  if p = CACHE_PATH then some cachedManualDb else none

/-- Witness for C10 at the concrete statement of `test_query`, a filesystem
holding only the bundled instance, and no flat-text files. -/
theorem C10_default_cache_witness :
    query wParseSql wDbFiles
        "SELECT description FROM torrc WHERE name=\u0022CookieAuthFile\u0022" none =
      query wParseSql wDbFiles
        "SELECT description FROM torrc WHERE name=\u0022CookieAuthFile\u0022"
        (some CACHE_PATH)
    ∧ query wParseSql wDbFiles
        "SELECT description FROM torrc WHERE name=\u0022CookieAuthFile\u0022" none =
        Except.ok [[("description", COOKIE_AUTH_FILE_DESC)]]
    ∧ Manual.from_cache (fun _ => none) wDbFiles none =
        Manual.from_cache (fun _ => none) wDbFiles (some CACHE_PATH)
    ∧ Manual.from_cache (fun _ => none) wDbFiles none =
        Except.ok (loadSqlite cachedManualDb)
    ∧ endsWithStr CACHE_PATH "cached_manual.sqlite" = true :=
  C10_default_cache wParseSql wDbFiles (fun _ => none)
    "SELECT description FROM torrc WHERE name=\u0022CookieAuthFile\u0022" rfl rfl

/-- Modelled from the spec: the error classes `download_man_page` raises — a
usage error for a violated precondition and an I/O error for every delegated
failure (§4.3, §7). -/
inductive DlError where
  | valueError (msg : String)
  | ioError (msg : String)
  deriving DecidableEq

/-- Modelled from the spec: the observable network/file/process effects of the
download operation, recorded in order, so that "raised before any I/O" is a
statement about the produced trace. -/
inductive DlEvent where
  | availabilityCheck
  | madeTempDir (dir : String)
  | openedFile (path : String)
  | fetched (url : String)
  | ranCommand (cmd : String)
  | removedTempDir (dir : String)
  deriving DecidableEq

/-- Modelled from the spec: the built-in default remote locator of tor's manual
source (pinned by `test_download_man_page_when_unable_to_write`). -/
def GITWEB_MANUAL_URL : String :=
  "https://gitweb.torproject.org/tor.git/plain/doc/tor.1.txt"

/-- Modelled from the spec: the external collaborators `download_man_page`
delegates to (§4.3): renderer availability, temporary staging directory
creation, opening/writing the staging file, fetching the remote source, and
invoking the external render command (its failure carries the diagnostic). -/
structure DlEnv where
  a2xAvailable : Bool
  tmpDir : String
  openWrite : String → Except String Unit
  fetch : String → Except String String
  callRender : String → Except String String

/-- Modelled from the spec: `stem.manual.download_man_page(path, file_handle,
url)` (§4.3).  Supplying neither destination is a usage error raised before
any I/O; a missing renderer, a staging-write failure, a download failure and a
render failure are I/O errors whose messages name the concrete locator, path or
literal command involved (messages pinned by the download tests).  Returns the
rendered output and the effect trace. -/
def download_man_page (env : DlEnv) (path file_handle : Option String)
    (url : String) : Except DlError String × List DlEvent :=
  if path.isNone && file_handle.isNone then
    (Except.error (DlError.valueError
      "Either the path or file_handle we\u0027re saving to must be provided"), [])
  else if !env.a2xAvailable then
    (Except.error (DlError.ioError "We require a2x from asciidoc to provide a man page"),
     [DlEvent.availabilityCheck])
  else
    match env.openWrite (env.tmpDir ++ "/tor.1.txt") with
    | Except.error e =>
        (Except.error (DlError.ioError ("Unable to download tor\u0027s manual from " ++ url
          ++ " to " ++ (env.tmpDir ++ "/tor.1.txt") ++ ": " ++ e)),
         [DlEvent.availabilityCheck, DlEvent.madeTempDir env.tmpDir,
          DlEvent.openedFile (env.tmpDir ++ "/tor.1.txt"),
          DlEvent.removedTempDir env.tmpDir])
    | Except.ok _ =>
        match env.fetch url with
        | Except.error e =>
            (Except.error (DlError.ioError ("Unable to download tor\u0027s manual from " ++ url
              ++ " to " ++ (env.tmpDir ++ "/tor.1.txt") ++ ": " ++ e)),
             [DlEvent.availabilityCheck, DlEvent.madeTempDir env.tmpDir,
              DlEvent.openedFile (env.tmpDir ++ "/tor.1.txt"), DlEvent.fetched url,
              DlEvent.removedTempDir env.tmpDir])
        | Except.ok _ =>
            match env.callRender ("a2x -f manpage " ++ (env.tmpDir ++ "/tor.1.txt")) with
            | Except.error e =>
                (Except.error (DlError.ioError ("Unable to run \u0027" ++
                  ("a2x -f manpage " ++ (env.tmpDir ++ "/tor.1.txt")) ++ "\u0027: " ++ e)),
                 [DlEvent.availabilityCheck, DlEvent.madeTempDir env.tmpDir,
                  DlEvent.openedFile (env.tmpDir ++ "/tor.1.txt"), DlEvent.fetched url,
                  DlEvent.ranCommand ("a2x -f manpage " ++ (env.tmpDir ++ "/tor.1.txt")),
                  DlEvent.removedTempDir env.tmpDir])
            | Except.ok output =>
                (Except.ok output,
                 [DlEvent.availabilityCheck, DlEvent.madeTempDir env.tmpDir,
                  DlEvent.openedFile (env.tmpDir ++ "/tor.1.txt"), DlEvent.fetched url,
                  DlEvent.ranCommand ("a2x -f manpage " ++ (env.tmpDir ++ "/tor.1.txt")),
                  DlEvent.removedTempDir env.tmpDir])

/-- Claim C5: invoking the download operation with neither a destination path
nor a writable file handle raises a usage error naming the missing
path/file_handle requirement, synchronously, with an empty effect trace —
before any network or file I/O is attempted. -/
theorem C5_download_without_destination (env : DlEnv) (url : String) :
    download_man_page env none none url =
      (Except.error (DlError.valueError
        "Either the path or file_handle we\u0027re saving to must be provided"), []) := by
  rfl

/-- Claim C8: every Renderer Bridge failure is surfaced as an I/O error naming
the concrete target path or remote locator that failed: a staging-write failure
and a download failure both produce a message naming the source URL and the
staging destination path, and a rendering-toolchain failure embeds the literal
external command and its exit diagnostic.  (The staging destination is the
`tor.1.txt` file inside the temporary directory.) -/
theorem C8_bridge_failures :
    (∀ (env : DlEnv) (pth : String) (fh : Option String) (url e : String),
      env.a2xAvailable = true →
      env.openWrite (env.tmpDir ++ "/tor.1.txt") = Except.error e →
      (download_man_page env (some pth) fh url).1 =
        Except.error (DlError.ioError ("Unable to download tor\u0027s manual from " ++ url
          ++ " to " ++ (env.tmpDir ++ "/tor.1.txt") ++ ": " ++ e)))
    ∧ (∀ (env : DlEnv) (pth : String) (fh : Option String) (url e : String),
      env.a2xAvailable = true →
      env.openWrite (env.tmpDir ++ "/tor.1.txt") = Except.ok () →
      env.fetch url = Except.error e →
      (download_man_page env (some pth) fh url).1 =
        Except.error (DlError.ioError ("Unable to download tor\u0027s manual from " ++ url
          ++ " to " ++ (env.tmpDir ++ "/tor.1.txt") ++ ": " ++ e)))
    ∧ (∀ (env : DlEnv) (pth : String) (fh : Option String) (url fetched e : String),
      env.a2xAvailable = true →
      env.openWrite (env.tmpDir ++ "/tor.1.txt") = Except.ok () →
      env.fetch url = Except.ok fetched →
      env.callRender ("a2x -f manpage " ++ (env.tmpDir ++ "/tor.1.txt")) =
        Except.error e →
      (download_man_page env (some pth) fh url).1 =
        Except.error (DlError.ioError ("Unable to run \u0027" ++
          ("a2x -f manpage " ++ (env.tmpDir ++ "/tor.1.txt")) ++ "\u0027: " ++ e))) := by
  refine ⟨?_, ?_, ?_⟩
  · intro env pth fh url e ha hw
    simp [download_man_page, ha, hw]
  · intro env pth fh url e ha hw hf
    simp [download_man_page, ha, hw, hf]
  · intro env pth fh url fetched e ha hw hf hc
    simp [download_man_page, ha, hw, hf, hc]

/-- Environment for the C8 witness in which the staging write fails
(mirroring `test_download_man_page_when_unable_to_write`). -/
def envWriteFail : DlEnv :=
  { a2xAvailable := true, tmpDir := "/no/such/path"
  , openWrite := fun _ => Except.error "unable to write to file"
  , fetch := fun _ => Except.ok "", callRender := fun _ => Except.ok "" }

/-- Environment for the C8 witness in which the download fails
(mirroring `test_download_man_page_when_download_fails`). -/
def envFetchFail : DlEnv :=
  { a2xAvailable := true, tmpDir := "/no/such/path"
  , openWrite := fun _ => Except.ok ()
  , fetch := fun _ => Except.error
      "<urlopen error <urlopen error [Errno -2] Name or service not known>>"
  , callRender := fun _ => Except.ok "" }

/-- Environment for the C8 witness in which the external render step fails
(mirroring `test_download_man_page_when_a2x_fails`). -/
def envRenderFail : DlEnv :=
  { a2xAvailable := true, tmpDir := "/no/such/path"
  , openWrite := fun _ => Except.ok (), fetch := fun _ => Except.ok "test content"
  , callRender := fun _ => Except.error "call failed" }

/-- Witness for C8 at the three concrete failing environments and the exact
error messages the download tests expect. -/
theorem C8_bridge_failures_witness :
    (download_man_page envWriteFail (some "/tmp/no_such_file") none GITWEB_MANUAL_URL).1 =
      Except.error (DlError.ioError ("Unable to download tor\u0027s manual from "
        ++ GITWEB_MANUAL_URL ++ " to " ++ ("/no/such/path" ++ "/tor.1.txt")
        ++ ": " ++ "unable to write to file"))
    ∧ (download_man_page envFetchFail (some "/tmp/no_such_file") none
        "https://www.atagar.com/foo/bar").1 =
      Except.error (DlError.ioError ("Unable to download tor\u0027s manual from "
        ++ "https://www.atagar.com/foo/bar" ++ " to " ++ ("/no/such/path" ++ "/tor.1.txt")
        ++ ": " ++ "<urlopen error <urlopen error [Errno -2] Name or service not known>>"))
    ∧ (download_man_page envRenderFail (some "/tmp/no_such_file") none
        "https://www.atagar.com/foo/bar").1 =
      Except.error (DlError.ioError ("Unable to run \u0027"
        ++ ("a2x -f manpage " ++ ("/no/such/path" ++ "/tor.1.txt"))
        ++ "\u0027: " ++ "call failed")) :=
  ⟨C8_bridge_failures.1 envWriteFail "/tmp/no_such_file" none GITWEB_MANUAL_URL
      "unable to write to file" rfl rfl,
   C8_bridge_failures.2.1 envFetchFail "/tmp/no_such_file" none
      "https://www.atagar.com/foo/bar"
      "<urlopen error <urlopen error [Errno -2] Name or service not known>>" rfl rfl rfl,
   C8_bridge_failures.2.2 envRenderFail "/tmp/no_such_file" none
      "https://www.atagar.com/foo/bar" "test content" "call failed" rfl rfl rfl rfl⟩

/-- Modelled from the spec: the fixed, hand-curated set of high-priority config
option names baked into the system (`manual.important` entries of stem's
`settings.cfg`); `test_is_important` pins that `ExitPolicy` is in the set and
`ConstrainedSockSize` is not. -/
def importantOptions : List String :=
  ["BandwidthRate", "BandwidthBurst", "RelayBandwidthRate", "RelayBandwidthBurst",
   "ControlPort", "CookieAuthentication", "DataDirectory", "DirPort", "ExitPolicy",
   "ExitRelay", "HiddenServiceDir", "HiddenServicePort", "Log", "Nickname", "ORPort",
   "SocksPort", "UseBridges", "Bridge"]

/-- Modelled from the spec: case-insensitive lowering of a name for the
importance lookup. -/
def lowerName (s : String) : String :=
  String.mk (s.data.map Char.toLower)

/-- Modelled from the spec: `stem.manual.is_important(name)` — a total,
case-insensitive membership test against the curated set; no failure mode, no
I/O (§4.6). -/
def is_important (nameVal : String) : Bool :=
  importantOptions.any (fun o => lowerName o = lowerName nameVal)

/-- Claim C9: `is_important` is a total function performing a case-insensitive
membership test: any two casings of the same name agree, every casing of a name
in the curated set (e.g. ExitPolicy, exitpolicy, EXITPOLICY) returns true, and
a name not in the set returns false regardless of casing; being a pure Lean
function it never raises and performs no I/O. -/
theorem C9_is_important :
    (∀ s t : String, lowerName s = lowerName t → is_important s = is_important t)
    ∧ is_important "ExitPolicy" = true
    ∧ is_important "exitpolicy" = true
    ∧ is_important "EXITPOLICY" = true
    ∧ is_important "ConstrainedSockSize" = false
    ∧ is_important "constrainedsocksize" = false
    ∧ is_important "CONSTRAINEDSOCKSIZE" = false := by
  refine ⟨?_, by decide, by decide, by decide, by decide, by decide, by decide⟩
  intro s t hst
  simp [is_important, hst]

/-- Witness for C9: applying the casing-invariance part of the claim at the
concrete casings of `test_is_important`. -/
theorem C9_is_important_witness :
    is_important "ExitPolicy" = is_important "EXITPOLICY" :=
  C9_is_important.1 "ExitPolicy" "EXITPOLICY" (by decide)

end StemManual
